import Mathlib

/-!
Verification of the build-support scripts of the glbrush.js repository.

The development shallowly embeds the four Python scripts:
  * src/tools/fetch_compiler.py   (checksum-verified compiler fetcher)
  * src/tools/compile_glbrush.py  (source-set resolver and the two
                                   compiler-invocation variants)
  * src/compile/compile.py        (configuration-file driven variant)

Modelling conventions:
  * The filesystem is a function from path strings to contents; for the
    fetcher, a file's content is represented by its SHA-1 hex digest,
    which is exact for the fetcher's control flow since the script only
    ever inspects contents through hashlib.sha1(...).hexdigest().
  * os.listdir is an oracle: a function from a directory path to the list
    of entry names in enumeration order.
  * Network downloads and HTTP responses are oracle inputs; the requests a
    function issues are collected in an explicit event list.
-/

namespace Glbrush

/-- The archive URL hard-coded in src/tools/fetch_compiler.py. -/
def zip_url : String := "https://closure-compiler.googlecode.com/files/compiler-20131014.zip"

/-- Expected SHA-1 of the downloaded archive (fetch_compiler.py line 3). -/
def zip_sha : String := "0e354ddd3559d2e6c60fb10a7defa35fd0a365fd"

/-- Expected SHA-1 of the extracted compiler.jar (fetch_compiler.py line 4). -/
def jar_sha : String := "a081823a172fd5640c38323ae83fa14a6bb9c589"

/-- A filesystem maps a path to the content stored there, if any.
Contents are represented by their SHA-1 hex digest (see module header). -/
def FS : Type := String → Option String

/-- Write content (represented by its digest) at a path. -/
def setFile (fs : FS) (p : String) (digest : String) : FS :=
  fun q => if q = p then some digest else fs q

/-- os.remove: delete the entry at a path. -/
def removeFile (fs : FS) (p : String) : FS :=
  fun q => if q = p then none else fs q

/-- os.path.exists as a Bool. -/
def existsFile (fs : FS) (p : String) : Bool :=
  (fs p).isSome

/-- sha1_of_file from src/tools/fetch_compiler.py lines 9-14: returns the
empty string when the path does not exist, otherwise the SHA-1 hex digest of
the file's contents (which is exactly the stored content in this model). -/
def sha1_of_file (fs : FS) (filepath : String) : String :=
  match fs filepath with
  | none => ""
  | some digest => digest

/-- The outcome of urllib.urlretrieve plus the zip container's observable
content: the digest of the downloaded archive bytes, the archive's entry
name list, and the digest of the bytes z.read returns for the
compiler.jar entry (meaningful only when that entry is present). -/
structure Download where
  zipDigest : String
  namelist : List String
  jarDigest : String

/-- fetch_compiler from src/tools/fetch_compiler.py lines 16-44, as a state
transformer on the filesystem.  Returns the Bool result together with the
final filesystem.  The network is the Download oracle; printing is pure
console output and not modelled. -/
def fetch_compiler (dl : Download) (fs : FS) (target_path : String) :
    Bool × FS :=
  let zippath := "compiler.zip"
  let fs1 := setFile fs zippath dl.zipDigest
  if sha1_of_file fs1 zippath ≠ zip_sha then
    let fs2 := if existsFile fs1 zippath then removeFile fs1 zippath else fs1
    (false, fs2)
  else
    let fs2 :=
      if dl.namelist.contains "compiler.jar" then
        setFile fs1 target_path dl.jarDigest
      else fs1
    let fs3 := removeFile fs2 zippath
    if sha1_of_file fs3 target_path ≠ jar_sha then
      let fs4 :=
        if existsFile fs3 target_path then removeFile fs3 target_path else fs3
      (false, fs4)
    else
      (true, fs3)

/-- The empty filesystem. -/
def emptyFS : FS := fun _ => none

example :
    (fetch_compiler ⟨zip_sha, ["compiler.jar"], jar_sha⟩ emptyFS "/t").1
      = true := by decide

example :
    (fetch_compiler ⟨zip_sha, ["compiler.jar"], jar_sha⟩ emptyFS "/t").2 "/t"
      = some jar_sha := by decide

example :
    (fetch_compiler ⟨"bad", [], ""⟩ emptyFS "/t").1 = false := by decide

example :
    (fetch_compiler ⟨"bad", [], ""⟩ (setFile emptyFS "/t" "stale") "/t").2 "/t"
      = some "stale" := by decide

/-- os.path.join of a directory and a name inside it: roots here are
absolute paths without a trailing separator and names are plain entry
names, so the join is directory ++ separator ++ name. -/
def joinPath (root filename : String) : String :=
  root ++ "/" ++ filename

/-- An os.listdir oracle: for each directory path, the entry names it
returns, in enumeration order. -/
def Listing : Type := String → List String

/-- Python str.endswith, as a computable suffix test on the character
list. -/
def strEndsWith (s suffix : String) : Bool :=
  List.isSuffixOf suffix.data s.data

/-- js_files_in from src/tools/compile_glbrush.py lines 6-9: join every
directory entry to the root, then keep the paths ending in the fixed
extension. -/
def js_files_in (w : Listing) (root : String) : List String :=
  let all_files := (w root).map (fun filename => joinPath root filename)
  all_files.filter (fun path => strEndsWith path ".js")

/-- lib_js from src/tools/compile_glbrush.py lines 15-19, parametrised by
the glbrush root path (glbrush_root_path in the source): files of the lib
subdirectory first, then files of the glbrush root itself.  No sorting of
any kind is applied. -/
def lib_js (w : Listing) (glbrush_root : String) : List String :=
  let js_files := js_files_in w glbrush_root
  js_files_in w (joinPath glbrush_root "lib") ++ js_files

example :
    lib_js
      (fun d => if d = "/g" then ["z.js", "util_x.js", "rasterize_shader_y.js", "note.txt"]
        else if d = "/g/lib" then ["a.js"] else [])
      "/g"
    = ["/g/lib/a.js", "/g/z.js", "/g/util_x.js", "/g/rasterize_shader_y.js"] := by
  decide

/-- Hex digit characters used by Python's percent-encoding, upper case. -/
def hexDigit (n : Nat) : Char :=
  if n < 10 then Char.ofNat (48 + n) else Char.ofNat (55 + n)

/-- The characters urllib.quote_plus leaves unescaped (Python 2
always_safe): ASCII letters, digits, and the three marks underscore,
period, hyphen. -/
def alwaysSafe (c : Char) : Bool :=
  (65 ≤ c.toNat && c.toNat ≤ 90) || (97 ≤ c.toNat && c.toNat ≤ 122) ||
  (48 ≤ c.toNat && c.toNat ≤ 57) || c = Char.ofNat 95 || c = Char.ofNat 46 ||
  c = Char.ofNat 45

/-- urllib.quote_plus on an ASCII string: a space becomes a plus sign,
safe characters pass through, every other character is percent-encoded. -/
def quote_plus (s : String) : String :=
  String.mk (s.data.flatMap (fun c =>
    if c = Char.ofNat 32 then [Char.ofNat 43]
    else if alwaysSafe c then [c]
    else [Char.ofNat 37, hexDigit (c.toNat / 16 % 16), hexDigit (c.toNat % 16)]))

/-- urllib.urlencode on an ordered list of key-value pairs. -/
def urlencode (params : List (String × String)) : String :=
  String.intercalate "&" (params.map (fun p => quote_plus p.1 ++ "=" ++ quote_plus p.2))

example : quote_plus "a b.js" = "a+b.js" := by decide
example : urlencode [("k", "v&w"), ("x", "y")] = "k=v%26w&x=y" := by decide

/-- One HTTP request as observed on the wire: method, host, URL path,
request body and headers. -/
structure HttpRequest where
  method : String
  host : String
  urlpath : String
  body : String
  headers : List (String × String)
deriving DecidableEq

/-- compile_with_online_compiler from src/tools/compile_glbrush.py lines
21-41.  The network is an oracle supplying the response body; the value
returned by the function is paired with the list of requests it issued. -/
def compile_with_online_compiler (js_code compilation_level : String)
    (response : String) : String × List HttpRequest :=
  let params := urlencode [
    ("js_code", js_code),
    ("compilation_level", compilation_level),
    ("output_format", "text"),
    ("output_info", "compiled_code")]
  let headers := [("Content-type", "application/x-www-form-urlencoded")]
  let requests := [HttpRequest.mk "POST" "closure-compiler.appspot.com" "/compile" params headers]
  let data := response
  (data, requests)

/-- Modelled from the spec: the remote-variant driver that reads every file
of the SourceFileSet into one concatenated in-memory buffer and hands it to
compile_with_online_compiler is not present under src/ (no caller of
compile_with_online_compiler exists there); spec section 4.3
remote-service variant describes it.  File contents are given in resolved
order. -/
def compile_online_driver (contents : List String) (compilation_level : String)
    (response : String) : String × List HttpRequest :=
  compile_with_online_compiler (String.join contents) compilation_level response

/-- The process state touched by compile_brushbench: the current working
directory and the set of existing filesystem paths (absolute). -/
structure PState where
  cwd : String
  files : String → Bool

/-- Observable side effects of compile_brushbench, in order.  The trace
vocabulary includes an event for invoking the Checksum-Verified Fetcher so
that its absence from every trace is expressible. -/
inductive Event where
  | mkdir (p : String)
  | chdir (p : String)
  | printMsg (msg : String)
  | exec (cmd : List String) (status : Int)
  | fetchCompiler (target : String)
deriving DecidableEq

/-- The compiler directory compile_brushbench uses (compile_glbrush.py
line 48): glbrush_root/node_modules/google-closure-compiler-java. -/
def compilerPath (glbrush_root : String) : String :=
  joinPath (joinPath glbrush_root "node_modules") "google-closure-compiler-java"

/-- The diagnostic printed when the compiler jar is missing
(compile_glbrush.py line 55). -/
def missingJarMsg : String :=
  "Closure compiler not found. Run \"npm install\" to install it"

/-- compile_brushbench from src/tools/compile_glbrush.py lines 43-75,
parametrised by the glbrush root (the parent of the script's directory),
the listdir oracle used by lib_js, and the exit status the external
process would return (subprocess.call's result, which the source
discards).  Returns the Bool result, the final process state, and the
event trace.  The relative path existence test for compiler.jar resolves
against the current working directory, as os.path.exists does. -/
def compile_brushbench (glbrush_root : String) (w : Listing) (st : PState)
    (status : Int) (output_path : String) : Bool × PState × List Event :=
  let restore_dir := st.cwd
  let compiler_path := compilerPath glbrush_root
  let lib_js_list := lib_js w glbrush_root
  let mkTrace : List Event :=
    if st.files compiler_path then [] else [Event.mkdir compiler_path]
  let st1 : PState :=
    if st.files compiler_path then st
    else { st with files := fun p => p = compiler_path || st.files p }
  let st2 : PState := { st1 with cwd := compiler_path }
  let trace0 := mkTrace ++ [Event.chdir compiler_path]
  if ¬ st2.files (joinPath st2.cwd "compiler.jar") then
    (false, { st2 with cwd := restore_dir },
      trace0 ++ [Event.printMsg missingJarMsg, Event.chdir restore_dir])
  else
    let brushbench_js_path := joinPath (joinPath glbrush_root "benchmark") "brushbench.js"
    let brushbench_js_path_no_extension := brushbench_js_path.dropRight 3
    let command :=
      ["java", "-jar", "compiler.jar", "--compilation_level", "SIMPLE_OPTIMIZATIONS"] ++
      ["--js_module_root", glbrush_root] ++
      ["--dependency_mode=STRICT"] ++
      ["--entry_point", brushbench_js_path_no_extension] ++
      ["--module_resolution", "BROWSER"] ++
      ["--js"] ++
      lib_js_list ++
      [brushbench_js_path] ++
      ["--js_output_file", output_path]
    (true, { st2 with cwd := restore_dir },
      trace0 ++ [Event.printMsg (String.intercalate " " command),
        Event.exec command status, Event.chdir restore_dir])

example :
    (compile_brushbench "/g" (fun _ => [])
      { cwd := "/start", files := fun _ => false } 0 "/out.js").1 = false := by
  decide

example :
    (compile_brushbench "/g" (fun _ => [])
      { cwd := "/start",
        files := fun p => p = compilerPath "/g" ||
          p = joinPath (compilerPath "/g") "compiler.jar" } 0 "/out.js").1
      = true := by decide

/-- Python str.strip(): remove the whitespace characters space, tab,
newline, carriage return, vertical tab and form feed from both ends. -/
def pyIsSpace (c : Char) : Bool :=
  c = Char.ofNat 32 || c = Char.ofNat 9 || c = Char.ofNat 10 ||
  c = Char.ofNat 13 || c = Char.ofNat 11 || c = Char.ofNat 12

/-- Python str.strip() on a string. -/
def pyStrip (s : String) : String :=
  String.mk (((s.data.dropWhile pyIsSpace).reverse.dropWhile pyIsSpace).reverse)

/-- Python line.startswith for a single-character marker: true when the
first character of the line is the marker. -/
def startsWithChar (s : String) (c : Char) : Bool :=
  match s.data with
  | [] => false
  | c0 :: _ => c0 = c

/-- os.path.join for the relative-path case of src/compile/compile.py:
a second argument that is itself absolute replaces the first, otherwise
the two are joined with a separator (posixpath.join semantics). -/
def pyPathJoin (a b : String) : String :=
  if startsWithChar b (Char.ofNat 47) then b else a ++ "/" ++ b

/-- lib_scripts_from_config from src/compile/compile.py lines 4-11, over
the list of lines configfile.readlines() returns (each line possibly still
carrying its line terminator).  The imperative accumulation loop is kept
as a fold. -/
def lib_scripts_from_config (fileLines : List String) : List String :=
  fileLines.foldl (fun jsfiles line =>
    if !(startsWithChar line (Char.ofNat 35)) && !(pyStrip line == "") then
      jsfiles ++ [pyPathJoin ".." (pyStrip line)]
    else jsfiles) []

example :
    lib_scripts_from_config ["# comment\n", "a.js\n", "  \n", "", " b.js\n"]
      = ["../a.js", "../b.js"] := by decide

/-! ## Theorems -/

lemma setFile_self (fs : FS) (p d : String) : setFile fs p d p = some d := by
  simp [setFile]

lemma removeFile_self (fs : FS) (p : String) : removeFile fs p p = none := by
  simp [removeFile]

lemma sha1_of_file_eq_some {fs : FS} {p s : String} (hs : s ≠ "")
    (h : sha1_of_file fs p = s) : fs p = some s := by
  unfold sha1_of_file at h
  cases hfs : fs p with
  | none => rw [hfs] at h; exact absurd h.symm hs
  | some d => rw [hfs] at h; exact congrArg some h

/-- C1 (counterexample): the claim that fetch_compiler never leaves a file
at the target path whose SHA-1 differs from the expected artifact checksum
is false: when the downloaded archive's checksum mismatches, a pre-existing
file at the target path is left untouched, even with a wrong digest.
Concretely, with a stale file of digest "deadbeef" at the target and a
corrupt download, fetch_compiler returns false and the stale file is still
there. -/
theorem fetch_compiler_leaves_stale_target :
    (fetch_compiler ⟨"corrupt", [], ""⟩
      (setFile emptyFS "/jar/compiler.jar" "deadbeef") "/jar/compiler.jar").1
      = false ∧
    (fetch_compiler ⟨"corrupt", [], ""⟩
      (setFile emptyFS "/jar/compiler.jar" "deadbeef") "/jar/compiler.jar").2
      "/jar/compiler.jar" = some "deadbeef" ∧
    "deadbeef" ≠ jar_sha := by
  refine ⟨by decide, by decide, by decide⟩

/-- C1 (amended): provided no file exists at the target path at entry (the
cache-miss situation the fetcher is invoked in), fetch_compiler leaves no
file at the target path whose SHA-1 differs from the expected artifact
checksum: when it returns true the target holds a file with the expected
checksum, and when it returns false (archive checksum mismatch or
extracted-artifact checksum mismatch) the target path does not exist. -/
theorem fetch_compiler_checksum_guarantee (dl : Download) (fs : FS)
    (target : String) (h0 : fs target = none) :
    ((fetch_compiler dl fs target).1 = true →
      (fetch_compiler dl fs target).2 target = some jar_sha) ∧
    ((fetch_compiler dl fs target).1 = false →
      (fetch_compiler dl fs target).2 target = none) := by
  unfold fetch_compiler
  by_cases hzip : sha1_of_file (setFile fs "compiler.zip" dl.zipDigest) "compiler.zip" = zip_sha
  · simp only [hzip, ne_eq, not_true_eq_false, if_false, ite_false]
    set fs2 : FS :=
      if dl.namelist.contains "compiler.jar" then
        setFile (setFile fs "compiler.zip" dl.zipDigest) target dl.jarDigest
      else setFile fs "compiler.zip" dl.zipDigest with hfs2
    set fs3 : FS := removeFile fs2 "compiler.zip" with hfs3
    by_cases hjar : sha1_of_file fs3 target = jar_sha
    · simp only [hjar, ne_eq, not_true_eq_false, if_false, ite_false]
      constructor
      · intro _
        exact sha1_of_file_eq_some (by decide) hjar
      · intro hfalse
        exact absurd hfalse (by simp)
    · simp only [hjar, ne_eq, not_false_eq_true, if_true, ite_true]
      constructor
      · intro htrue
        exact absurd htrue (by simp)
      · intro _
        cases hv : fs3 target with
        | none =>
            have hex : existsFile fs3 target = false := by
              unfold existsFile; rw [hv]; rfl
            rw [hex]
            simp [hv]
        | some d =>
            have hex : existsFile fs3 target = true := by
              unfold existsFile; rw [hv]; rfl
            rw [hex]
            simp [removeFile_self]
  · simp only [hzip, ne_eq, not_false_eq_true, if_true, ite_true]
    constructor
    · intro htrue
      exact absurd htrue (by simp)
    · intro _
      have hex : existsFile (setFile fs "compiler.zip" dl.zipDigest) "compiler.zip" = true := by
        unfold existsFile; rw [setFile_self]; rfl
      rw [hex]
      by_cases ht : target = "compiler.zip"
      · subst ht; simp [removeFile_self]
      · simp [removeFile, setFile, ht, h0]

/-- C1 (witness): the amended guarantee applied to a concrete corrupt
download over an empty filesystem: the result is false and the target path
does not exist afterwards. -/
theorem fetch_compiler_checksum_guarantee_witness :
    (fetch_compiler ⟨"corrupt", [], ""⟩ emptyFS "/jar/compiler.jar").2
      "/jar/compiler.jar" = none :=
  (fetch_compiler_checksum_guarantee ⟨"corrupt", [], ""⟩ emptyFS
    "/jar/compiler.jar" rfl).2 (by decide)

/-- C10 (counterexample): fetch_compiler returning true is not equivalent
to the target file existing with the expected SHA-1 at return: with a file
of the expected digest already at the target and a corrupt archive
download, fetch_compiler returns false although the target file exists and
its SHA-1 equals the expected artifact checksum. -/
theorem fetch_compiler_false_despite_valid_target :
    (fetch_compiler ⟨"corrupt", [], ""⟩
      (setFile emptyFS "/jar/compiler.jar" jar_sha) "/jar/compiler.jar").1
      = false ∧
    (fetch_compiler ⟨"corrupt", [], ""⟩
      (setFile emptyFS "/jar/compiler.jar" jar_sha) "/jar/compiler.jar").2
      "/jar/compiler.jar" = some jar_sha := by
  refine ⟨by decide, by decide⟩

/-- C10 (amended): fetch_compiler returns true if and only if the archive
checksum matched and, at the moment of returning, the file at the target
path exists with the expected artifact checksum; moreover it returns true
even when the archive contains no compiler.jar entry, provided a file with
the expected checksum already existed at the target path (the target being
distinct from the temporary archive name). -/
theorem fetch_compiler_true_iff_verified (dl : Download) (fs : FS)
    (target : String) :
    ((fetch_compiler dl fs target).1 = true ↔
      (dl.zipDigest = zip_sha ∧
        (fetch_compiler dl fs target).2 target = some jar_sha)) ∧
    (dl.zipDigest = zip_sha → dl.namelist.contains "compiler.jar" = false →
      target ≠ "compiler.zip" → fs target = some jar_sha →
      (fetch_compiler dl fs target).1 = true) := by
  have hsha1 : sha1_of_file (setFile fs "compiler.zip" dl.zipDigest) "compiler.zip"
      = dl.zipDigest := by
    unfold sha1_of_file
    rw [setFile_self]
  constructor
  · simp only [fetch_compiler]
    rw [hsha1]
    by_cases hzip : dl.zipDigest = zip_sha
    · simp only [hzip, ne_eq, not_true_eq_false, if_false, ite_false]
      set fs2 : FS :=
        if dl.namelist.contains "compiler.jar" then
          setFile (setFile fs "compiler.zip" zip_sha) target dl.jarDigest
        else setFile fs "compiler.zip" zip_sha with hfs2
      set fs3 : FS := removeFile fs2 "compiler.zip" with hfs3
      by_cases hjar : sha1_of_file fs3 target = jar_sha
      · simp only [hjar, ne_eq, not_true_eq_false, if_false, ite_false]
        simp only [true_iff, true_and]
        exact sha1_of_file_eq_some (by decide) hjar
      · simp only [hjar, ne_eq, not_false_eq_true, if_true, ite_true]
        simp only [Bool.false_eq_true, false_iff, not_and, true_implies]
        intro hcontra
        cases hv : fs3 target with
        | none =>
            have hex : existsFile fs3 target = false := by
              unfold existsFile; rw [hv]; rfl
            rw [hex] at hcontra
            simp [hv] at hcontra
        | some d =>
            have hex : existsFile fs3 target = true := by
              unfold existsFile; rw [hv]; rfl
            rw [hex] at hcontra
            simp [removeFile_self] at hcontra
    · simp [hzip]
  · intro hzip hnone hne hpre
    simp only [fetch_compiler]
    rw [hsha1]
    simp only [hzip, ne_eq, not_true_eq_false, if_false, ite_false, hnone,
      Bool.false_eq_true]
    have htarget :
        removeFile (setFile fs "compiler.zip" zip_sha) "compiler.zip" target
          = some jar_sha := by
      unfold removeFile setFile
      simp only [hne, if_false, ite_false]
      exact hpre
    have hjar :
        sha1_of_file (removeFile (setFile fs "compiler.zip" zip_sha) "compiler.zip")
          target = jar_sha := by
      unfold sha1_of_file
      rw [htarget]
    simp [hjar]

/-- C10 (witness): the amended equivalence applied at a concrete input: a
matching archive download whose zip has no compiler.jar entry, over a
filesystem already holding a verified jar at the target, yields true. -/
theorem fetch_compiler_true_iff_verified_witness :
    (fetch_compiler ⟨zip_sha, ["README"], ""⟩
      (setFile emptyFS "/jar/compiler.jar" jar_sha) "/jar/compiler.jar").1
      = true :=
  (fetch_compiler_true_iff_verified ⟨zip_sha, ["README"], ""⟩
    (setFile emptyFS "/jar/compiler.jar" jar_sha) "/jar/compiler.jar").2
    rfl (by decide) (by decide) (by decide)

/-- A directory entry name containing the path separator (impossible for
os.listdir output). -/
def hasSlash (s : String) : Bool :=
  s.data.contains (Char.ofNat 47)

lemma joinPath_injective (r : String) : Function.Injective (joinPath r) := by
  intro a b h
  apply String.ext
  have hd := congrArg String.data h
  simp only [joinPath, String.data_append] at hd
  exact List.append_cancel_left hd

lemma joinPath_lib_ne {g a b : String} (hb : hasSlash b = false) :
    joinPath (joinPath g "lib") a ≠ joinPath g b := by
  intro h
  have hd := congrArg String.data h
  simp only [joinPath, String.data_append, List.append_assoc] at hd
  have hd2 : "lib".data ++ ("/".data ++ a.data) = b.data :=
    List.append_cancel_left (List.append_cancel_left hd)
  have hmem : Char.ofNat 47 ∈ b.data := by
    rw [← hd2]
    refine List.mem_append_right _ (List.mem_append_left _ ?_)
    decide
  unfold hasSlash at hb
  rw [List.contains_eq_any_beq] at hb
  simp at hb
  exact hb _ hmem rfl

/-- C2 (counterexample): the three-tier ordering is absent from the code:
with the client root enumerating rasterize_shader_y.js, util_x.js, z.js (in
that, lexicographic, order) and lib containing a.js, the resolved sequence
keeps enumeration order, so the utility-marked file does NOT precede the
shader-rasterizer file, and the resolved order differs from the one the
claim's scenario requires. -/
theorem lib_js_no_tier_ordering :
    (lib_js
        (fun d => if d = "/g" then ["rasterize_shader_y.js", "util_x.js", "z.js"]
          else if d = "/g/lib" then ["a.js"] else []) "/g"
      = ["/g/lib/a.js", "/g/rasterize_shader_y.js", "/g/util_x.js", "/g/z.js"]) ∧
    (lib_js
        (fun d => if d = "/g" then ["rasterize_shader_y.js", "util_x.js", "z.js"]
          else if d = "/g/lib" then ["a.js"] else []) "/g"
      ≠ ["/g/lib/a.js", "/g/util_x.js", "/g/rasterize_shader_y.js", "/g/z.js"]) ∧
    List.indexOf "/g/rasterize_shader_y.js"
        (lib_js
          (fun d => if d = "/g" then ["rasterize_shader_y.js", "util_x.js", "z.js"]
            else if d = "/g/lib" then ["a.js"] else []) "/g")
      < List.indexOf "/g/util_x.js"
        (lib_js
          (fun d => if d = "/g" then ["rasterize_shader_y.js", "util_x.js", "z.js"]
            else if d = "/g/lib" then ["a.js"] else []) "/g") := by
  refine ⟨by decide, by decide, by decide⟩

/-- C2 (amended): the resolver applies no tier-based reordering at all:
client-root files appear in the resolved sequence after the library-root
files in directory-enumeration order, so any two client-root .js entries
occur in the output exactly in the order the directory enumeration gave
them, markers notwithstanding. -/
theorem lib_js_preserves_enumeration_order (w : Listing) (g x y : String)
    (hsub : List.Sublist [x, y] (w g))
    (hx : strEndsWith (joinPath g x) ".js" = true)
    (hy : strEndsWith (joinPath g y) ".js" = true) :
    List.Sublist [joinPath g x, joinPath g y] (lib_js w g) := by
  have hmap : List.Sublist [joinPath g x, joinPath g y] ((w g).map (joinPath g)) := by
    simpa using hsub.map (joinPath g)
  have hfilter : List.Sublist [joinPath g x, joinPath g y] (js_files_in w g) := by
    have h2 := hmap.filter (fun path => strEndsWith path ".js")
    simpa [js_files_in, hx, hy] using h2
  exact hfilter.trans (List.sublist_append_right _ _)

/-- C2 (witness): the order-preservation theorem applied to the concrete
enumeration of the counterexample world: the joined client paths occur in
enumeration order inside the resolved sequence. -/
theorem lib_js_preserves_enumeration_order_witness :
    List.Sublist [joinPath "/g" "rasterize_shader_y.js", joinPath "/g" "util_x.js"]
      (lib_js
        (fun d => if d = "/g" then ["rasterize_shader_y.js", "util_x.js", "z.js"]
          else if d = "/g/lib" then ["a.js"] else []) "/g") :=
  lib_js_preserves_enumeration_order
    (fun d => if d = "/g" then ["rasterize_shader_y.js", "util_x.js", "z.js"]
      else if d = "/g/lib" then ["a.js"] else [])
    "/g" "rasterize_shader_y.js" "util_x.js" (by decide) (by decide) (by decide)

/-- C7: over any listdir oracle whose listings are duplicate-free and
whose client-root entry names contain no path separator (as os.listdir
guarantees), the resolved source set contains exactly the joined paths of
the .js entries of the lib root and of the glbrush root, each path exactly
once, and every library-root file precedes every client-root file. -/
theorem lib_js_exact_files (w : Listing) (g : String)
    (hnr : (w g).Nodup) (hnl : (w (joinPath g "lib")).Nodup)
    (hslash : ∀ f ∈ w g, hasSlash f = false) :
    (∀ p, p ∈ lib_js w g ↔
      ((∃ f ∈ w (joinPath g "lib"), joinPath (joinPath g "lib") f = p) ∨
        (∃ f ∈ w g, joinPath g f = p)) ∧ strEndsWith p ".js" = true) ∧
    (lib_js w g).Nodup ∧
    (∀ p q, p ∈ js_files_in w (joinPath g "lib") → q ∈ js_files_in w g →
      List.Sublist [p, q] (lib_js w g)) := by
  refine ⟨?_, ?_, ?_⟩
  · intro p
    simp only [lib_js, js_files_in, List.mem_append, List.mem_filter,
      List.mem_map]
    constructor
    · rintro (⟨⟨f, hf, hjoin⟩, hjs⟩ | ⟨⟨f, hf, hjoin⟩, hjs⟩)
      · exact ⟨Or.inl ⟨f, hf, hjoin⟩, hjs⟩
      · exact ⟨Or.inr ⟨f, hf, hjoin⟩, hjs⟩
    · rintro ⟨⟨f, hf, hjoin⟩ | ⟨f, hf, hjoin⟩, hjs⟩
      · exact Or.inl ⟨⟨f, hf, hjoin⟩, hjs⟩
      · exact Or.inr ⟨⟨f, hf, hjoin⟩, hjs⟩
  · have dlib : (js_files_in w (joinPath g "lib")).Nodup :=
      (hnl.map (joinPath_injective _)).filter _
    have dcli : (js_files_in w g).Nodup :=
      (hnr.map (joinPath_injective _)).filter _
    have hdisj : List.Disjoint (js_files_in w (joinPath g "lib"))
        (js_files_in w g) := by
      intro a ha hb
      simp only [js_files_in, List.mem_filter, List.mem_map] at ha hb
      obtain ⟨⟨f, hf, hjoin⟩, _⟩ := ha
      obtain ⟨⟨f2, hf2, hjoin2⟩, _⟩ := hb
      exact joinPath_lib_ne (hslash f2 hf2) (hjoin.trans hjoin2.symm)
    exact dlib.append dcli hdisj
  · intro p q hp hq
    exact (List.singleton_sublist.mpr hp).append (List.singleton_sublist.mpr hq)

/-- C7 (witness): the characterisation applied to a concrete world with
lib containing a.js and the client root containing b.js and x.txt: the
resolved source set is duplicate-free. -/
theorem lib_js_exact_files_witness :
    (lib_js
      (fun d => if d = "/g" then ["b.js", "x.txt"]
        else if d = "/g/lib" then ["a.js"] else []) "/g").Nodup :=
  (lib_js_exact_files
    (fun d => if d = "/g" then ["b.js", "x.txt"]
      else if d = "/g/lib" then ["a.js"] else []) "/g"
    (by decide) (by decide) (by decide)).2.1

/-- Recogniser for the fetcher-invocation event. -/
def Event.isFetch : Event → Bool
  | Event.fetchCompiler _ => true
  | _ => false

lemma joinPath_ne_root (r f : String) : joinPath r f ≠ r := by
  intro h
  have hd := congrArg String.data h
  simp only [joinPath, String.data_append] at hd
  have hlen := congrArg List.length hd
  simp only [List.length_append] at hlen
  have hone : "/".data.length = 1 := rfl
  rw [hone] at hlen
  omega

/-- C3: compile_brushbench restores the working directory on every exit
path: whatever the inputs and whichever branch returns (missing jar or
successful invocation), the current working directory of the final state
equals the one at entry. -/
theorem compile_brushbench_restores_cwd (g : String) (w : Listing)
    (st : PState) (status : Int) (out : String) :
    ((compile_brushbench g w st status out).2.1).cwd = st.cwd := by
  simp only [compile_brushbench]
  split <;> split <;> rfl

/-- C4 (counterexample): with the compiler directory present but no
compiler.jar cached, compile_brushbench fails without ever invoking the
Checksum-Verified Fetcher: the result is false, the trace is exactly a
directory change, the npm-install diagnostic, and the restoring directory
change — and contains no fetch event. -/
theorem compile_brushbench_missing_jar_no_fetch :
    (compile_brushbench "/g" (fun _ => [])
        { cwd := "/start", files := fun p => p = compilerPath "/g" } 0 "/out.js").1
      = false ∧
    (compile_brushbench "/g" (fun _ => [])
        { cwd := "/start", files := fun p => p = compilerPath "/g" } 0 "/out.js").2.2
      = [Event.chdir (compilerPath "/g"), Event.printMsg missingJarMsg,
        Event.chdir "/start"] ∧
    ((compile_brushbench "/g" (fun _ => [])
        { cwd := "/start", files := fun p => p = compilerPath "/g" } 0 "/out.js").2.2.all
      (fun e => e.isFetch = false)) = true := by
  refine ⟨by decide, by decide, by decide⟩

/-- C4 (amended): compile_brushbench never invokes the Checksum-Verified
Fetcher — its event trace contains no fetch event — and whenever the
cached compiler artifact is absent, it fails immediately, returning false
after printing the instruction to install the compiler via npm instead of
fetching it. -/
theorem compile_brushbench_never_fetches (g : String) (w : Listing)
    (st : PState) (status : Int) (out : String)
    (hjar : st.files (joinPath (compilerPath g) "compiler.jar") = false) :
    (∀ e ∈ (compile_brushbench g w st status out).2.2, e.isFetch = false) ∧
    (compile_brushbench g w st status out).1 = false ∧
    Event.printMsg missingJarMsg ∈ (compile_brushbench g w st status out).2.2 := by
  have hne : joinPath (compilerPath g) "compiler.jar" ≠ compilerPath g :=
    joinPath_ne_root _ _
  by_cases hdir : st.files (compilerPath g) = true
  · simp only [compile_brushbench, hdir, if_true, ite_true, hjar]
    refine ⟨?_, by trivial, by simp⟩
    simp [Event.isFetch]
  · have hfiles :
        (decide (joinPath (compilerPath g) "compiler.jar" = compilerPath g) ||
          st.files (joinPath (compilerPath g) "compiler.jar")) = false := by
      simp [hne, hjar]
    simp only [compile_brushbench, hdir, Bool.false_eq_true, if_false,
      ite_false, hfiles]
    refine ⟨?_, by trivial, by simp⟩
    simp [Event.isFetch]

/-- C4 (witness): the amended statement applied to the concrete
missing-jar input of the counterexample: the run fails. -/
theorem compile_brushbench_never_fetches_witness :
    (compile_brushbench "/g" (fun _ => [])
        { cwd := "/start", files := fun p => p = compilerPath "/g" } 0 "/out.js").1
      = false :=
  (compile_brushbench_never_fetches "/g" (fun _ => [])
    { cwd := "/start", files := fun p => p = compilerPath "/g" } 0 "/out.js"
    (by decide)).2.1

/-- C8: with the cached compiler artifact present, compile_brushbench
returns true whatever exit status the external compiler process reports:
the result is the same success indicator for every status. -/
theorem compile_brushbench_ignores_exit_status (g : String) (w : Listing)
    (st : PState) (out : String)
    (hjar : st.files (joinPath (compilerPath g) "compiler.jar") = true) :
    ∀ status : Int, (compile_brushbench g w st status out).1 = true := by
  intro status
  have hfiles :
      (if st.files (compilerPath g) then st
        else { st with files := fun p => p = compilerPath g || st.files p }).files
        (joinPath (compilerPath g) "compiler.jar") = true := by
    split
    · exact hjar
    · simp only [hjar]
      simp
  simp only [compile_brushbench, hfiles]
  simp

/-- C8 (witness): applied at a concrete state holding the jar and two
different exit statuses, the result is true both times. -/
theorem compile_brushbench_ignores_exit_status_witness :
    (compile_brushbench "/g" (fun _ => [])
        { cwd := "/start",
          files := fun p => p = compilerPath "/g" ||
            p = joinPath (compilerPath "/g") "compiler.jar" } 7 "/out.js").1
      = true ∧
    (compile_brushbench "/g" (fun _ => [])
        { cwd := "/start",
          files := fun p => p = compilerPath "/g" ||
            p = joinPath (compilerPath "/g") "compiler.jar" } (-1) "/out.js").1
      = true :=
  ⟨compile_brushbench_ignores_exit_status "/g" (fun _ => [])
    { cwd := "/start",
      files := fun p => p = compilerPath "/g" ||
        p = joinPath (compilerPath "/g") "compiler.jar" } "/out.js" (by decide) 7,
   compile_brushbench_ignores_exit_status "/g" (fun _ => [])
    { cwd := "/start",
      files := fun p => p = compilerPath "/g" ||
        p = joinPath (compilerPath "/g") "compiler.jar" } "/out.js" (by decide) (-1)⟩

/-- Value of an upper-case hexadecimal digit character. -/
def hexVal (c : Char) : Nat :=
  if 48 ≤ c.toNat ∧ c.toNat ≤ 57 then c.toNat - 48 else c.toNat - 55

/-- Percent-decoding at the character-list level, inverse to the encoding
quote_plus performs: a plus sign becomes a space, a percent sign followed
by two hex digits becomes the encoded character, anything else passes
through. -/
def unq : List Char → List Char
  | [] => []
  | c :: rest =>
    if c = Char.ofNat 43 then Char.ofNat 32 :: unq rest
    else if c = Char.ofNat 37 then
      match rest with
      | h1 :: h2 :: rest2 => Char.ofNat (16 * hexVal h1 + hexVal h2) :: unq rest2
      | [h1] => c :: unq [h1]
      | [] => c :: unq []
    else c :: unq rest
termination_by l => l.length
decreasing_by
  all_goals simp only [List.length_cons, List.length_nil]
  all_goals omega

/-- urllib.unquote_plus restricted to well-formed encodings. -/
def unquote_plus (s : String) : String :=
  String.mk (unq s.data)

lemma hexVal_hexDigit {n : Nat} (h : n < 16) : hexVal (hexDigit n) = n := by
  interval_cases n <;> decide

/-- The encoding of one character that quote_plus applies. -/
def encChar (c : Char) : List Char :=
  if c = Char.ofNat 32 then [Char.ofNat 43]
  else if alwaysSafe c then [c]
  else [Char.ofNat 37, hexDigit (c.toNat / 16 % 16), hexDigit (c.toNat % 16)]

lemma quote_plus_data (s : String) :
    (quote_plus s).data = s.data.flatMap encChar := rfl

lemma unq_plus (rest : List Char) :
    unq (Char.ofNat 43 :: rest) = Char.ofNat 32 :: unq rest := by
  rw [unq.eq_def]
  simp

lemma unq_pct (h1 h2 : Char) (rest : List Char) :
    unq (Char.ofNat 37 :: h1 :: h2 :: rest)
      = Char.ofNat (16 * hexVal h1 + hexVal h2) :: unq rest := by
  rw [unq.eq_def]
  have hne : ¬ (Char.ofNat 37 = Char.ofNat 43) := by decide
  simp [hne]

lemma unq_other (c : Char) (h43 : c ≠ Char.ofNat 43) (h37 : c ≠ Char.ofNat 37)
    (rest : List Char) : unq (c :: rest) = c :: unq rest := by
  rw [unq.eq_def]
  simp [h43, h37]

lemma unq_encChar (l : List Char) (h : ∀ c ∈ l, c.toNat < 128) :
    unq (l.flatMap encChar) = l := by
  induction l with
  | nil => rw [List.flatMap_nil, unq.eq_def]
  | cons c rest ih =>
    have hc : c.toNat < 128 := h c (List.mem_cons_self c rest)
    have hrest : ∀ x ∈ rest, x.toNat < 128 :=
      fun x hx => h x (List.mem_cons_of_mem c hx)
    rw [List.flatMap_cons]
    by_cases hsp : c = Char.ofNat 32
    · subst hsp
      have henc : encChar (Char.ofNat 32) = [Char.ofNat 43] := rfl
      rw [henc, List.singleton_append, unq_plus, ih hrest]
    · by_cases hsafe : alwaysSafe c = true
      · have henc : encChar c = [c] := by simp [encChar, hsp, hsafe]
        have h43 : c ≠ Char.ofNat 43 := by
          intro hcontra
          rw [hcontra] at hsafe
          exact absurd hsafe (by decide)
        have h37 : c ≠ Char.ofNat 37 := by
          intro hcontra
          rw [hcontra] at hsafe
          exact absurd hsafe (by decide)
        rw [henc, List.singleton_append, unq_other c h43 h37, ih hrest]
      · have henc : encChar c =
            [Char.ofNat 37, hexDigit (c.toNat / 16 % 16),
              hexDigit (c.toNat % 16)] := by
          simp [encChar, hsp, hsafe]
        rw [henc]
        simp only [List.cons_append, List.nil_append]
        rw [unq_pct]
        rw [hexVal_hexDigit (by omega), hexVal_hexDigit (by omega)]
        have harith : 16 * (c.toNat / 16 % 16) + c.toNat % 16 = c.toNat := by
          omega
        rw [harith, Char.ofNat_toNat, ih hrest]

/-- For ASCII payloads, unquote_plus recovers exactly the string that
quote_plus encoded: the URL-encoded body carries the payload faithfully. -/
lemma unquote_plus_quote_plus (s : String) (h : ∀ c ∈ s.data, c.toNat < 128) :
    unquote_plus (quote_plus s) = s := by
  apply String.ext
  rw [unquote_plus]
  rw [quote_plus_data]
  exact unq_encChar s.data h

/-- C5: for every source set (file contents in resolved order), the
remote-service variant issues exactly one request: an HTTPS POST to the
fixed hostname closure-compiler.appspot.com, whose URL-encoded body is
built from exactly the four fields js_code (the exact concatenation of the
contents in order), compilation_level, output_format = text and
output_info = compiled_code; for ASCII sources the js_code payload is
recoverable verbatim from the encoded body. -/
theorem online_compiler_single_post_request (contents : List String)
    (level response : String)
    (hascii : ∀ c ∈ (String.join contents).data, c.toNat < 128) :
    ((compile_online_driver contents level response).2).length = 1 ∧
    (compile_online_driver contents level response).2 =
      [HttpRequest.mk "POST" "closure-compiler.appspot.com" "/compile"
        (urlencode [("js_code", String.join contents),
          ("compilation_level", level),
          ("output_format", "text"),
          ("output_info", "compiled_code")])
        [("Content-type", "application/x-www-form-urlencoded")]] ∧
    unquote_plus (quote_plus (String.join contents)) = String.join contents := by
  refine ⟨rfl, rfl, unquote_plus_quote_plus _ hascii⟩

/-- C5 (witness): the request theorem applied to a concrete two-file
source set: one POST request whose js_code field is the exact
concatenation of both files' contents in resolved order. -/
theorem online_compiler_single_post_request_witness :
    (compile_online_driver ["var a = 1;\n", "var b = a;\n"]
        "SIMPLE_OPTIMIZATIONS" "ok").2 =
      [HttpRequest.mk "POST" "closure-compiler.appspot.com" "/compile"
        (urlencode [("js_code", String.join ["var a = 1;\n", "var b = a;\n"]),
          ("compilation_level", "SIMPLE_OPTIMIZATIONS"),
          ("output_format", "text"),
          ("output_info", "compiled_code")])
        [("Content-type", "application/x-www-form-urlencoded")]] :=
  (online_compiler_single_post_request ["var a = 1;\n", "var b = a;\n"]
    "SIMPLE_OPTIMIZATIONS" "ok" (by decide)).2.1

/-- C6: the remote-service variant returns the full response body verbatim
and unconditionally: for every response the service produces, whatever its
content (compiled output or an error page), the function's result is that
response, unchanged. -/
theorem online_compiler_returns_response_verbatim
    (js_code compilation_level response : String) :
    (compile_with_online_compiler js_code compilation_level response).1
      = response := rfl

lemma foldl_ite_append {α β : Type} (p : α → Bool) (f : α → β) :
    ∀ (l : List α) (acc : List β),
      l.foldl (fun r x => if p x then r ++ [f x] else r) acc
        = acc ++ (l.filter p).map f := by
  intro l
  induction l with
  | nil =>
    intro acc
    simp
  | cons hd tl ih =>
    intro acc
    by_cases hp : p hd = true
    · simp only [List.foldl_cons, hp, if_true, ite_true, List.filter_cons,
        List.map_cons, ih]
      rw [List.append_assoc]
      rfl
    · simp only [List.foldl_cons, hp, Bool.false_eq_true, if_false, ite_false,
        List.filter_cons, ih]

/-- C9: the configuration parser keeps exactly the lines that do not begin
with the hash character and are not blank (whitespace-only), in file
order, and maps each kept line to the relative path obtained by joining
the parent directory with the stripped line; every other line is
ignored. -/
theorem lib_scripts_from_config_filters (fileLines : List String) :
    lib_scripts_from_config fileLines =
      (fileLines.filter (fun line =>
        !(startsWithChar line (Char.ofNat 35)) && !(pyStrip line == ""))).map
        (fun line => pyPathJoin ".." (pyStrip line)) := by
  have h := foldl_ite_append
    (fun line => !(startsWithChar line (Char.ofNat 35)) && !(pyStrip line == ""))
    (fun line => pyPathJoin ".." (pyStrip line)) fileLines []
  simpa [lib_scripts_from_config] using h

end Glbrush
